import Mathlib

/-!
Shallow embedding of the Smart-To-Do service (three source variants):

* Variant A — `src/untitled/index.js`: users in `users.json`, tasks in one
  JSON file per user (`tasks/tasks_<userId>.json`).
* Variant B — `src/unnamed/part_000`: users in SQLite, tasks in per-user
  JSON files; its `updateTask` additionally coerces `completed` with
  `Boolean(...)`.
* Variant C — `src/unnamed/part_001`: users and tasks both in SQLite
  (`todos.db`), with `sanitizeTaskData` and SQL-scoped update/delete.

JSON scalar values are modelled by `JSVal` (request bodies come from
`JSON.parse`, so `undefined` never occurs as a field value; an absent field
is modelled by `Option`). Arrays and nested objects are not modelled: no
code path of the claims inspects them.
-/

/-- A JSON scalar value as produced by `JSON.parse` in the request body or
stored in a task file. -/
inductive JSVal where
  | vNull : JSVal
  | vBool : Bool → JSVal
  | vStr : String → JSVal
  | vNum : Int → JSVal
  deriving DecidableEq, Repr

/-- JavaScript truthiness of a JSON scalar: `null`, `false`, `""` and `0`
are falsy, everything else is truthy. -/
def truthy : JSVal → Bool
  | JSVal.vNull => false
  | JSVal.vBool b => b
  | JSVal.vStr s => s ≠ ""
  | JSVal.vNum n => n ≠ 0

/-- The JavaScript `x || d` pattern applied to a possibly-absent body field:
an absent field is `undefined` (falsy), a present falsy value also yields the
default. -/
def jsOr (o : Option JSVal) (d : JSVal) : JSVal :=
  match o with
  | some v => if truthy v then v else d
  | none => d

/-- Whitespace as stripped by JavaScript `String.prototype.trim` (the
whitespace characters that can occur in the inputs considered here). -/
def isJsWhitespace (c : Char) : Bool :=
  c = ' ' ∨ c = '\t' ∨ c = '\n' ∨ c = '\r'

/-- JavaScript `s.trim()`: strip leading and trailing whitespace. -/
def jsTrim (s : String) : String :=
  ⟨((s.data.dropWhile isJsWhitespace).reverse.dropWhile isJsWhitespace).reverse⟩

/-- A stored task record of the JSON-file variants (A and B). After the
spread-merge in `updateTask` any field can hold any JSON scalar, so every
field is a `JSVal`. -/
structure TaskA where
  id : JSVal
  text : JSVal
  priority : JSVal
  category : JSVal
  deadline : JSVal
  completed : JSVal
  created_at : JSVal
  updated_at : JSVal
  deriving DecidableEq, Repr

/-- A parsed request body for the task routes of variants A and B, one
`Option JSVal` per recognised key (`none` = key absent). Keys outside the
task schema are not modelled. -/
structure BodyA where
  id : Option JSVal
  text : Option JSVal
  priority : Option JSVal
  category : Option JSVal
  deadline : Option JSVal
  completed : Option JSVal
  created_at : Option JSVal
  deriving DecidableEq, Repr

/-- The empty request body `{}` (also what a non-JSON body parses to). -/
def emptyBodyA : BodyA := ⟨none, none, none, none, none, none, none⟩

/-- Outcome of `createTask` in variants A and B. -/
inductive CreateAResult where
  | badRequest : CreateAResult
  | serverError : CreateAResult
  | created : TaskA → CreateAResult
  deriving DecidableEq, Repr

/-- `createTask` of `src/untitled/index.js` lines 249-282 (identical in
`part_000` lines 263-300): requires truthy `text` whose trim is non-empty
(`400` otherwise), then builds the new task with `priority || 'medium'`,
`category || 'personal'`, `deadline || null`, `completed: false`.
A truthy non-string `text` makes `text.trim()` throw, caught as a 500.
`newId` stands for the generated `task_<ts>_<rand>` id and `now` for
`new Date().toISOString()`. -/
def createTaskA (b : BodyA) (newId now : String) : CreateAResult :=
  match b.text with
  | none => CreateAResult.badRequest
  | some v =>
    if truthy v then
      match v with
      | JSVal.vStr s =>
        if jsTrim s = "" then CreateAResult.badRequest
        else CreateAResult.created
          { id := JSVal.vStr newId
          , text := JSVal.vStr (jsTrim s)
          , priority := jsOr b.priority (JSVal.vStr "medium")
          , category := jsOr b.category (JSVal.vStr "personal")
          , deadline := jsOr b.deadline JSVal.vNull
          , completed := JSVal.vBool false
          , created_at := JSVal.vStr now
          , updated_at := JSVal.vStr now }
      | _ => CreateAResult.serverError
    else CreateAResult.badRequest

/-- The per-user task files of variants A and B: `tasks/tasks_<uid>.json`
maps each user id to that user's task list (a missing file reads as `[]`). -/
abbrev StateA := String → List TaskA

/-- `getTasks` (variant A lines 238-246): responds with the caller's file
contents, unfiltered. -/
def getTasksA (st : StateA) (uid : String) : List TaskA := st uid

/-- `createTask` at the store level: on success the new task is appended to
the caller's own file only. -/
def createA (st : StateA) (uid : String) (b : BodyA) (newId now : String) :
    CreateAResult × StateA :=
  match createTaskA b newId now with
  | CreateAResult.created t =>
    (CreateAResult.created t, fun u => if u = uid then st uid ++ [t] else st u)
  | r => (r, st)

/-- The spread-merge `{...task, ...body, updated_at: new Date()}` of
`updateTask` in `src/untitled/index.js` lines 295-299: every key present in
the body overwrites the stored field (no whitelist), `updated_at` is written
last so it is always re-stamped. -/
def mergeA (t : TaskA) (b : BodyA) (now : String) : TaskA :=
  { id := b.id.getD t.id
  , text := b.text.getD t.text
  , priority := b.priority.getD t.priority
  , category := b.category.getD t.category
  , deadline := b.deadline.getD t.deadline
  , completed := b.completed.getD t.completed
  , created_at := b.created_at.getD t.created_at
  , updated_at := JSVal.vStr now }

/-- `updateTask` of `part_000` lines 313-322: the same spread-merge, then
`if (body.completed !== undefined) updatedTask.completed = Boolean(body.completed)`. -/
def mergeB (t : TaskA) (b : BodyA) (now : String) : TaskA :=
  let m := mergeA t b now
  match b.completed with
  | some v => { m with completed := JSVal.vBool (truthy v) }
  | none => m

/-- `tasks.findIndex(t => t.id === taskId)` followed by replacement of that
single entry, modelled recursively: the first task whose stored `id` is the
path string is rewritten by `f`, all others are untouched; `none` when no id
matches (`findIndex` returned `-1`). -/
def updateListWith (f : TaskA → TaskA) (tid : String) : List TaskA → Option (List TaskA)
  | [] => none
  | t :: ts =>
    if t.id = JSVal.vStr tid then some (f t :: ts)
    else (updateListWith f tid ts).map (t :: ·)

/-- Outcome of `updateTask`/`deleteTask` in variants A and B. -/
inductive UpdResult where
  | notFound : UpdResult
  | updated : UpdResult
  deriving DecidableEq, Repr

/-- `updateTask` of `src/untitled/index.js` lines 285-309: loads only the
caller's file, 404 when `findIndex` misses, otherwise writes the merged task
back to the caller's file. -/
def updateA (st : StateA) (uid tid : String) (b : BodyA) (now : String) :
    UpdResult × StateA :=
  match updateListWith (fun t => mergeA t b now) tid (st uid) with
  | none => (UpdResult.notFound, st)
  | some ts => (UpdResult.updated, fun u => if u = uid then ts else st u)

/-- `updateTask` of `src/unnamed/part_000` lines 303-332: as `updateA` but
with the `Boolean(body.completed)` coercion of `mergeB`. -/
def updateB (st : StateA) (uid tid : String) (b : BodyA) (now : String) :
    UpdResult × StateA :=
  match updateListWith (fun t => mergeB t b now) tid (st uid) with
  | none => (UpdResult.notFound, st)
  | some ts => (UpdResult.updated, fun u => if u = uid then ts else st u)

/-- `deleteTask` of `src/untitled/index.js` lines 312-328 (identical in
`part_000` lines 335-351): filters the caller's file by
`t.id !== taskId`; if nothing was removed the lengths agree and a 404 is
sent without writing, otherwise the filtered list is saved. -/
def deleteA (st : StateA) (uid tid : String) : UpdResult × StateA :=
  let tasks := st uid
  let filtered := tasks.filter (fun t => t.id ≠ JSVal.vStr tid)
  if tasks.length = filtered.length then (UpdResult.notFound, st)
  else (UpdResult.updated, fun u => if u = uid then filtered else st u)

/-- A row of the `tasks` table of `src/unnamed/part_001` lines 47-58:
`completed` is an INTEGER (default 0), `deadline` is nullable TEXT, the
other columns are TEXT / DATETIME strings. -/
structure TaskC where
  id : String
  user_id : Nat
  text : String
  completed : Nat
  priority : String
  category : String
  deadline : Option String
  created_at : String
  updated_at : String
  deriving DecidableEq, Repr

/-- A request body for the task routes of variant C. The fields consumed by
`createTask`/`sanitizeTaskData` are modelled as string-or-absent (the
clients send JSON strings); `completed` keeps full scalar generality since
only its truthiness is used. -/
structure BodyC where
  text : Option String
  priority : Option String
  category : Option String
  deadline : Option String
  completed : Option JSVal
  deriving DecidableEq, Repr

/-- The empty request body `{}` for variant C. -/
def emptyBodyC : BodyC := ⟨none, none, none, none, none⟩

/-- The `^\d{4}-\d{2}-\d{2}$` test of `part_001` line 323: ten characters,
digits everywhere except dashes at positions 4 and 7. -/
def isDateShape (s : String) : Bool :=
  let cs := s.toList
  cs.length = 10 ∧
    (∀ i ∈ ([0, 1, 2, 3, 5, 6, 8, 9] : List Nat), (cs.getD i ' ').isDigit) ∧
    cs.getD 4 ' ' = '-' ∧ cs.getD 7 ' ' = '-'

/-- `new Date(d).toISOString().split('T')[0]` from `sanitizeTaskData`
(`part_001` line 285), modelled on strict `YYYY-MM-DD` inputs, where the
round trip returns the input unchanged; every other input is conservatively
treated as the throwing case (`none`), which the caller's `try` turns into a
500. (JavaScript would additionally accept some non-ISO parseable dates;
no theorem below instantiates the deadline at such an input.) -/
def jsDateIso (d : String) : Option String :=
  if isDateShape d then some d else none

/-- The sanitized field bundle produced by `sanitizeTaskData`. -/
structure SanitizedC where
  text : String
  priority : String
  category : String
  deadline : Option String
  deriving DecidableEq, Repr

/-- `sanitizeTaskData` of `part_001` lines 276-287: `String(data.text || '')
.trim()`, priority/category kept only when in their enum (else the default),
and `data.deadline ? new Date(...).toISOString().split('T')[0] : null`.
`none` models the `Date` conversion throwing. -/
def sanitizeTaskData (b : BodyC) : Option SanitizedC :=
  let text := jsTrim (b.text.getD "")
  let priority :=
    match b.priority with
    | some s => if ["low", "medium", "high"].contains s then s else "medium"
    | none => "medium"
  let category :=
    match b.category with
    | some s =>
      if ["personal", "work", "shopping", "health"].contains s then s else "personal"
    | none => "personal"
  match b.deadline with
  | none => some ⟨text, priority, category, none⟩
  | some d =>
    if d = "" then some ⟨text, priority, category, none⟩
    else
      match jsDateIso d with
      | some iso => some ⟨text, priority, category, some iso⟩
      | none => none

/-- `createTask` of `part_001` lines 289-407: coerce the fields
(`String(body.x || default)`), reject empty trimmed text with a 400,
silently replace an out-of-enum priority/category by its default, null a
deadline that fails the `YYYY-MM-DD` regex, then insert the row with
`completed` and the timestamps left to their column defaults. `none` models
the 400 response; the SQL error paths insert nothing and are not modelled. -/
def createTaskC (b : BodyC) (uid : Nat) (newId now : String) : Option TaskC :=
  let text := jsTrim (b.text.getD "")
  if text = "" then none
  else
    let priority0 :=
      match b.priority with
      | some s => if s ≠ "" then s else "medium"
      | none => "medium"
    let category0 :=
      match b.category with
      | some s => if s ≠ "" then s else "personal"
      | none => "personal"
    let priority := if ["low", "medium", "high"].contains priority0 then priority0 else "medium"
    let category :=
      if ["personal", "work", "shopping", "health"].contains category0 then category0
      else "personal"
    let deadline0 : Option String :=
      match b.deadline with
      | some d => if d ≠ "" then some d else none
      | none => none
    let deadline :=
      match deadline0 with
      | some d => if isDateShape d then some d else none
      | none => none
    some
      { id := newId
      , user_id := uid
      , text := text
      , completed := 0
      , priority := priority
      , category := category
      , deadline := deadline
      , created_at := now
      , updated_at := now }

/-- The `tasks` table of variant C: a single global list of rows. -/
abbrev StateC := List TaskC

/-- Outcome of the SQL-backed `updateTask`/`deleteTask` of variant C. -/
inductive UpdCResult where
  | notFound : UpdCResult
  | updated : UpdCResult
  | serverError : UpdCResult
  deriving DecidableEq, Repr

/-- `updateTask` of `part_001` lines 410-446: sanitize the body (a throwing
sanitize is caught as a 500), compute `completed = body.completed ? 1 : 0`,
then `UPDATE tasks SET text, completed, priority, category, deadline,
updated_at WHERE id = ? AND user_id = ?`; `this.changes === 0` yields the
404. Every named column of each matching row is overwritten, whether or not
the body mentioned it. -/
def updateC (st : StateC) (uid : Nat) (tid : String) (b : BodyC) (now : String) :
    UpdCResult × StateC :=
  match sanitizeTaskData b with
  | none => (UpdCResult.serverError, st)
  | some s =>
    let completedInt : Nat :=
      match b.completed with
      | some v => if truthy v then 1 else 0
      | none => 0
    let changes := st.countP (fun t => t.id = tid ∧ t.user_id = uid)
    if changes = 0 then (UpdCResult.notFound, st)
    else
      (UpdCResult.updated,
        st.map (fun t =>
          if t.id = tid ∧ t.user_id = uid then
            { t with
              text := s.text
            , completed := completedInt
            , priority := s.priority
            , category := s.category
            , deadline := s.deadline
            , updated_at := now }
          else t))

/-- `deleteTask` of `part_001` lines 449-466: `DELETE FROM tasks WHERE
id = ? AND user_id = ?`; zero changed rows yields the 404. -/
def deleteC (st : StateC) (uid : Nat) (tid : String) : UpdCResult × StateC :=
  let remaining := st.filter (fun t => ¬(t.id = tid ∧ t.user_id = uid))
  if st.length = remaining.length then (UpdCResult.notFound, st)
  else (UpdCResult.updated, remaining)

/-- A task row as variant C serialises it to the client: `getTasks` maps
each row through `{...task, completed: Boolean(task.completed)}`. -/
structure TaskCOut where
  id : String
  user_id : Nat
  text : String
  completed : Bool
  priority : String
  category : String
  deadline : Option String
  created_at : String
  updated_at : String
  deriving DecidableEq, Repr

/-- The `completed: Boolean(task.completed)` conversion applied per row
(`part_001` lines 266-269); an INTEGER is truthy exactly when non-zero. -/
def formatTaskC (t : TaskC) : TaskCOut :=
  ⟨t.id, t.user_id, t.text, t.completed ≠ 0, t.priority, t.category, t.deadline,
    t.created_at, t.updated_at⟩

/-- `getTasks` of `part_001` lines 255-273: `SELECT * FROM tasks WHERE
user_id = ? ORDER BY created_at DESC`, each row then formatted with the
boolean `completed`. SQLite orders the `DATETIME DEFAULT CURRENT_TIMESTAMP`
TEXT column by string comparison; descending order is modelled by sorting
with `b.created_at ≤ a.created_at`. -/
def getTasksC (st : StateC) (uid : Nat) : List TaskCOut :=
  ((st.filter (fun t => t.user_id = uid)).insertionSort
    (fun a b => b.created_at ≤ a.created_at)).map formatTaskC

/-- A user record of `users.json` in variant A (lines 158-164): `password`
holds the bcrypt hash. -/
structure UserA where
  id : String
  username : String
  email : String
  password : String
  created_at : String
  deriving DecidableEq, Repr

/-- Observable outcome of `handleLogin`; the token serialisation on the
success path is treated separately by the byte-level codec below. -/
inductive LoginResult where
  | badRequest : String → LoginResult
  | ok : String → String → LoginResult
  deriving DecidableEq, Repr

/-- `handleLogin` of `src/untitled/index.js` lines 176-214 (the same
control flow as `part_001` lines 177-222 with the SQL lookup): missing
credentials give one 400 message, and both an unknown username and a bcrypt
mismatch give the identical `400 {error: 'Неверные данные'}`. `bcrypt
.compare` is modelled by the abstract `check : plaintext → hash → Bool`
parameter; absent body fields are modelled as `""` (both are falsy, and no
stored username or password hash is empty). -/
def handleLogin (check : String → String → Bool) (users : List UserA)
    (username pw : String) : LoginResult :=
  if username = "" ∨ pw = "" then LoginResult.badRequest "Логин и пароль обязательны"
  else
    match users.find? (fun u => u.username = username) with
    | none => LoginResult.badRequest "Неверные данные"
    | some u =>
      if check pw u.password then LoginResult.ok u.id u.username
      else LoginResult.badRequest "Неверные данные"

/-- The base64 alphabet of `Buffer.toString('base64')`: sextet 0-25 ↦
`A`-`Z`, 26-51 ↦ `a`-`z`, 52-61 ↦ `0`-`9`, 62 ↦ `+`, 63 ↦ `/` (byte
values). -/
def b64char (n : Nat) : Nat :=
  if n < 26 then 65 + n
  else if n < 52 then 97 + (n - 26)
  else if n < 62 then 48 + (n - 52)
  else if n = 62 then 43
  else 47

/-- Inverse alphabet lookup; `none` for a byte outside the alphabet. -/
def b64charInv (c : Nat) : Option Nat :=
  if 65 ≤ c ∧ c ≤ 90 then some (c - 65)
  else if 97 ≤ c ∧ c ≤ 122 then some (c - 97 + 26)
  else if 48 ≤ c ∧ c ≤ 57 then some (c - 48 + 52)
  else if c = 43 then some 62
  else if c = 47 then some 63
  else none

/-- `Buffer.from(bytes).toString('base64')`: three input bytes per four
alphabet bytes, `=` (61) padding for a trailing group of one or two. -/
def b64encode : List Nat → List Nat
  | [] => []
  | [a] => [b64char (a / 4), b64char (a % 4 * 16), 61, 61]
  | [a, b] => [b64char (a / 4), b64char (a % 4 * 16 + b / 16), b64char (b % 16 * 4), 61]
  | a :: b :: c :: rest =>
    b64char (a / 4) :: b64char (a % 4 * 16 + b / 16) ::
      b64char (b % 16 * 4 + c / 64) :: b64char (c % 64) :: b64encode rest

/-- `Buffer.from(token, 'base64')` restricted to well-formed groups of four;
a malformed group decodes to `[]` (Node is lenient there, but every theorem
below only decodes strings produced by `b64encode`). -/
def b64decode : List Nat → List Nat
  | c1 :: c2 :: c3 :: c4 :: rest =>
    (match b64charInv c1, b64charInv c2 with
     | some s1, some s2 =>
       let b1 := s1 * 4 + s2 / 16
       if c3 = 61 then [b1]
       else
         match b64charInv c3 with
         | some s3 =>
           let b2 := s2 % 16 * 16 + s3 / 4
           if c4 = 61 then [b1, b2]
           else
             match b64charInv c4 with
             | some s4 => b1 :: b2 :: (s3 % 4 * 64 + s4) :: b64decode rest
             | none => []
         | none => []
     | _, _ => [])
  | _ => []

/-- JavaScript `decoded.split(':')` over byte strings (58 = `:`). -/
def splitColon : List Nat → List (List Nat)
  | [] => [[]]
  | c :: rest =>
    let r := splitColon rest
    if c = 58 then [] :: r
    else
      match r with
      | h :: t => (c :: h) :: t
      | [] => [[c]]

/-- The identity a token asserts, as stored in `users.json`: the `id` and
`username` fields viewed as byte strings (UTF-8). -/
structure UserTok where
  id : List Nat
  username : List Nat
  deriving DecidableEq, Repr

/-- Token issue at `src/untitled/index.js` line 202:
`Buffer.from(userId + ':' + username).toString('base64')`. -/
def issueToken (uid uname : List Nat) : List Nat :=
  b64encode (uid ++ 58 :: uname)

/-- `'Basic '` as bytes. -/
def basicPrefix : List Nat := [66, 97, 115, 105, 99, 32]

/-- `authenticate` of `src/untitled/index.js` lines 217-235: require the
`Basic ` prefix, base64-decode the remainder, destructure
`[userId, username] = decoded.split(':')` (a missing second component is
`undefined` and can match no stored string), and look up a user with both
fields equal; the response exposes the found user's `(id, username)`. -/
def authenticate (users : List UserTok) (header : Option (List Nat)) :
    Option (List Nat × List Nat) :=
  match header with
  | none => none
  | some h =>
    if h.take 6 = basicPrefix then
      let decoded := b64decode (h.drop 6)
      let parts := splitColon decoded
      match parts.get? 0, parts.get? 1 with
      | some uid, some un =>
        (match users.find? (fun u => u.id = uid ∧ u.username = un) with
         | some u => some (u.id, u.username)
         | none => none)
      | _, _ => none
    else none

/-! ## Helper lemmas -/

theorem updateListWith_eq_none (f : TaskA → TaskA) (tid : String) (l : List TaskA)
    (h : ∀ t ∈ l, t.id ≠ JSVal.vStr tid) : updateListWith f tid l = none := by
  induction l with
  | nil => rfl
  | cons t ts ih =>
    have ht : t.id ≠ JSVal.vStr tid := h t (by simp)
    have hts := ih (fun u hu => h u (by simp [hu]))
    simp [updateListWith, ht, hts]

theorem updateListWith_append (f : TaskA → TaskA) (tid : String) (l₁ l₂ : List TaskA)
    (t : TaskA) (h₁ : ∀ u ∈ l₁, u.id ≠ JSVal.vStr tid) (ht : t.id = JSVal.vStr tid) :
    updateListWith f tid (l₁ ++ t :: l₂) = some (l₁ ++ f t :: l₂) := by
  induction l₁ with
  | nil => simp [updateListWith, ht]
  | cons u us ih =>
    have hu : u.id ≠ JSVal.vStr tid := h₁ u (by simp)
    have hus := ih (fun x hx => h₁ x (by simp [hx]))
    simp [updateListWith, hu, hus]

theorem length_ne_length_filter_of_mem {α : Type} (l : List α) (p : α → Bool) (t : α)
    (htl : t ∈ l) (hpt : p t = false) : ¬ l.length = (l.filter p).length := by
  intro he
  have heq : l.filter p = l := (List.filter_sublist l).eq_of_length he.symm
  have hmem : t ∈ l.filter p := by rw [heq]; exact htl
  have := (List.mem_filter.mp hmem).2
  simp [hpt] at this

theorem b64charInv_b64char : ∀ s : Nat, s < 64 → b64charInv (b64char s) = some s ∧ b64char s ≠ 61 := by
  decide

theorem b64_roundtrip_aux :
    ∀ (n : Nat) (l : List Nat), l.length ≤ n → (∀ x ∈ l, x < 256) →
      b64decode (b64encode l) = l := by
  intro n
  induction n with
  | zero =>
    intro l hl _
    cases l with
    | nil => rfl
    | cons a t => simp at hl
  | succ n ih =>
    intro l hl hb
    match l with
    | [] => rfl
    | [a] =>
      have ha : a < 256 := hb a (by simp)
      have h1 := b64charInv_b64char (a / 4) (by omega)
      have h2 := b64charInv_b64char (a % 4 * 16) (by omega)
      simp [b64encode, b64decode, h1.1, h2.1]
      omega
    | [a, b] =>
      have ha : a < 256 := hb a (by simp)
      have hbb : b < 256 := hb b (by simp)
      have h1 := b64charInv_b64char (a / 4) (by omega)
      have h2 := b64charInv_b64char (a % 4 * 16 + b / 16) (by omega)
      have h3 := b64charInv_b64char (b % 16 * 4) (by omega)
      simp [b64encode, b64decode, h1.1, h2.1, h3.1, h3.2]
      omega
    | a :: b :: c :: rest =>
      have ha : a < 256 := hb a (by simp)
      have hbb : b < 256 := hb b (by simp)
      have hc : c < 256 := hb c (by simp)
      have h1 := b64charInv_b64char (a / 4) (by omega)
      have h2 := b64charInv_b64char (a % 4 * 16 + b / 16) (by omega)
      have h3 := b64charInv_b64char (b % 16 * 4 + c / 64) (by omega)
      have h4 := b64charInv_b64char (c % 64) (by omega)
      have hlen : rest.length ≤ n := by simp at hl; omega
      have hrest := ih rest hlen (fun x hx => hb x (by simp [hx]))
      simp [b64encode, b64decode, h1.1, h2.1, h3.1, h4.1, h3.2, h4.2, hrest]
      omega

theorem b64_roundtrip (l : List Nat) (h : ∀ x ∈ l, x < 256) :
    b64decode (b64encode l) = l :=
  b64_roundtrip_aux l.length l le_rfl h

theorem splitColon_of_no_colon (l : List Nat) (h : 58 ∉ l) : splitColon l = [l] := by
  induction l with
  | nil => rfl
  | cons c rest ih =>
    have hc : c ≠ 58 := fun e => h (by simp [e])
    have hr := ih (fun hm => h (by simp [hm]))
    simp [splitColon, hc, hr]

theorem splitColon_append (xs ys : List Nat) (h : 58 ∉ xs) :
    splitColon (xs ++ 58 :: ys) = xs :: splitColon ys := by
  induction xs with
  | nil => simp [splitColon]
  | cons c rest ih =>
    have hc : c ≠ 58 := fun e => h (by simp [e])
    have hr := ih (fun hm => h (by simp [hm]))
    simp [splitColon, hc, hr]

/-! ## Sample data for concrete instantiations -/

/-- A well-formed stored task of the JSON-file variants. -/
def sampleTaskA : TaskA :=
  ⟨JSVal.vStr "t1", JSVal.vStr "Buy milk", JSVal.vStr "medium", JSVal.vStr "personal",
    JSVal.vNull, JSVal.vBool false, JSVal.vStr "2025-01-01T00:00:00.000Z",
    JSVal.vStr "2025-01-01T00:00:00.000Z"⟩

/-- A task store of the JSON-file variants holding one task for `alice`. -/
def sampleStoreA : StateA := fun u => if u = "alice" then [sampleTaskA] else []

/-- A well-formed row of the variant-C `tasks` table, owned by user 1. -/
def sampleTaskC : TaskC :=
  ⟨"t1", 1, "Buy milk", 0, "high", "work", some "2025-01-01",
    "2025-01-01 00:00:00", "2025-01-01 00:00:00"⟩

/-! ## Claims -/

/-- Unfolding lemma for `deleteA` (keeps the predicate in its original
elaborated form, which `simp` would otherwise normalise away). -/
theorem deleteA_eq (st : StateA) (uid tid : String) :
    deleteA st uid tid =
      if (st uid).length = ((st uid).filter (fun t => t.id ≠ JSVal.vStr tid)).length
      then (UpdResult.notFound, st)
      else (UpdResult.updated,
        fun u => if u = uid then (st uid).filter (fun t => t.id ≠ JSVal.vStr tid) else st u) :=
  rfl

/-- Unfolding lemma for `deleteC`. -/
theorem deleteC_eq (st : StateC) (uid : Nat) (tid : String) :
    deleteC st uid tid =
      if st.length = (st.filter (fun t => ¬(t.id = tid ∧ t.user_id = uid))).length
      then (UpdCResult.notFound, st)
      else (UpdCResult.updated, st.filter (fun t => ¬(t.id = tid ∧ t.user_id = uid))) :=
  rfl

/-- Unfolding lemma for `updateC` when `sanitizeTaskData` succeeds. -/
theorem updateC_eq (st : StateC) (uid : Nat) (tid : String) (b : BodyC) (now : String)
    (s : SanitizedC) (hs : sanitizeTaskData b = some s) :
    updateC st uid tid b now =
      if st.countP (fun t => t.id = tid ∧ t.user_id = uid) = 0
      then (UpdCResult.notFound, st)
      else (UpdCResult.updated, st.map (fun t =>
        if t.id = tid ∧ t.user_id = uid then
          { t with
            text := s.text
          , completed :=
              match b.completed with
              | some v => if truthy v then 1 else 0
              | none => 0
          , priority := s.priority
          , category := s.category
          , deadline := s.deadline
          , updated_at := now }
        else t)) := by
  simp only [updateC, hs]

/-- Unfolding lemma for `updateC` when `sanitizeTaskData` throws. -/
theorem updateC_eq_none (st : StateC) (uid : Nat) (tid : String) (b : BodyC)
    (now : String) (hs : sanitizeTaskData b = none) :
    updateC st uid tid b now = (UpdCResult.serverError, st) := by
  simp only [updateC, hs]

/-- C1: Owner isolation. For distinct users, every task-store operation
issued by one user leaves the other user's tasks untouched; an update or
delete naming a task id the caller does not own answers `NotFound` with the
store unchanged (in the per-user-file variants this covers every id of the
other user's tasks, their files being disjoint; in the SQL variant the
`WHERE id AND user_id` scope of both update and delete gives the same for
ids owned only by the other user, and neither touches the other user's
rows); and list — variant A's file read and variant C's
`SELECT WHERE user_id` — returns exactly the caller's own tasks. -/
theorem c1_owner_isolation (stA : StateA) (stC : StateC) (A B : String) (nA nB : Nat)
    (hAB : A ≠ B) (hnAB : nA ≠ nB) :
    (∀ b nid now, (createA stA A b nid now).2 B = stA B)
    ∧ (∀ tid b now, (updateA stA A tid b now).2 B = stA B)
    ∧ (∀ tid b now, (updateB stA A tid b now).2 B = stA B)
    ∧ (∀ tid, (deleteA stA A tid).2 B = stA B)
    ∧ getTasksA stA A = stA A
    ∧ (∀ tid b now, (∀ t ∈ stA A, t.id ≠ JSVal.vStr tid) →
        updateA stA A tid b now = (UpdResult.notFound, stA))
    ∧ (∀ tid, (∀ t ∈ stA A, t.id ≠ JSVal.vStr tid) →
        deleteA stA A tid = (UpdResult.notFound, stA))
    ∧ (∀ tid b now s, sanitizeTaskData b = some s →
        (∀ t ∈ stC, t.id = tid → t.user_id ≠ nA) →
        updateC stC nA tid b now = (UpdCResult.notFound, stC))
    ∧ (∀ tid b now t, t ∈ stC → t.user_id = nB → t ∈ (updateC stC nA tid b now).2)
    ∧ (∀ tid b now t, t ∈ (updateC stC nA tid b now).2 → t.user_id = nB → t ∈ stC)
    ∧ (∀ tid, (∀ t ∈ stC, t.id = tid → t.user_id ≠ nA) →
        deleteC stC nA tid = (UpdCResult.notFound, stC))
    ∧ (∀ tid t, t ∈ stC → t.user_id = nB → t ∈ (deleteC stC nA tid).2)
    ∧ (∀ x ∈ getTasksC stC nA, x.user_id = nA)
    ∧ (∀ t ∈ stC, t.user_id = nA → formatTaskC t ∈ getTasksC stC nA) := by
  have hBA : ¬ B = A := fun e => hAB e.symm
  refine ⟨?_, ?_, ?_, ?_, rfl, ?_, ?_, ?_, ?_, ?_, ?_, ?_, ?_, ?_⟩
  · intro b nid now
    cases hc : createTaskA b nid now <;> simp [createA, hc, hBA]
  · intro tid b now
    cases hu : updateListWith (fun t => mergeA t b now) tid (stA A) <;>
      simp [updateA, hu, hBA]
  · intro tid b now
    cases hu : updateListWith (fun t => mergeB t b now) tid (stA A) <;>
      simp [updateB, hu, hBA]
  · intro tid
    rw [deleteA_eq]
    by_cases hl :
        (stA A).length = ((stA A).filter (fun t => t.id ≠ JSVal.vStr tid)).length
    · rw [if_pos hl]
    · rw [if_neg hl]
      exact if_neg hBA
  · intro tid b now h
    simp [updateA, updateListWith_eq_none _ tid (stA A) h]
  · intro tid h
    have hself : (stA A).filter (fun t => t.id ≠ JSVal.vStr tid) = stA A :=
      List.filter_eq_self.mpr (fun t ht => decide_eq_true (h t ht))
    rw [deleteA_eq, hself, if_pos rfl]
  · intro tid b now s hs h
    have hcount : stC.countP (fun t => t.id = tid ∧ t.user_id = nA) = 0 :=
      List.countP_eq_zero.mpr (fun t ht hpt =>
        h t ht (of_decide_eq_true hpt).1 (of_decide_eq_true hpt).2)
    rw [updateC_eq stC nA tid b now s hs, if_pos hcount]
  · intro tid b now t ht hB
    cases hsn : sanitizeTaskData b with
    | none =>
      rw [updateC_eq_none stC nA tid b now hsn]
      exact ht
    | some s =>
      rw [updateC_eq stC nA tid b now s hsn]
      by_cases hch : stC.countP (fun x => x.id = tid ∧ x.user_id = nA) = 0
      · rw [if_pos hch]
        exact ht
      · rw [if_neg hch]
        have hcnd : ¬(t.id = tid ∧ t.user_id = nA) := fun hx => hnAB (hx.2 ▸ hB)
        exact List.mem_map.mpr ⟨t, ht, if_neg hcnd⟩
  · intro tid b now t htm hB
    cases hsn : sanitizeTaskData b with
    | none =>
      rw [updateC_eq_none stC nA tid b now hsn] at htm
      exact htm
    | some s =>
      rw [updateC_eq stC nA tid b now s hsn] at htm
      by_cases hch : stC.countP (fun x => x.id = tid ∧ x.user_id = nA) = 0
      · rw [if_pos hch] at htm
        exact htm
      · rw [if_neg hch] at htm
        obtain ⟨y, hy, he⟩ := List.mem_map.mp htm
        by_cases hcond : y.id = tid ∧ y.user_id = nA
        · rw [if_pos hcond] at he
          have hu := congrArg TaskC.user_id he
          exact absurd (hcond.2.symm.trans (hu.trans hB)) hnAB
        · rw [if_neg hcond] at he
          rw [← he]
          exact hy
  · intro tid h
    have hself : stC.filter (fun t => ¬(t.id = tid ∧ t.user_id = nA)) = stC :=
      List.filter_eq_self.mpr (fun t ht => decide_eq_true (fun hx => h t ht hx.1 hx.2))
    rw [deleteC_eq, hself, if_pos rfl]
  · intro tid t ht hB
    rw [deleteC_eq]
    by_cases hl :
        stC.length = (stC.filter (fun t => ¬(t.id = tid ∧ t.user_id = nA))).length
    · rw [if_pos hl]
      exact ht
    · rw [if_neg hl]
      exact List.mem_filter.mpr ⟨ht, decide_eq_true (fun hx => hnAB (hx.2 ▸ hB))⟩
  · intro x hx
    obtain ⟨y, hy, rfl⟩ := List.mem_map.mp hx
    have hmem : y ∈ stC.filter (fun t => t.user_id = nA) :=
      (List.perm_insertionSort _ _).mem_iff.mp hy
    exact of_decide_eq_true (List.mem_filter.mp hmem).2
  · intro t ht hA2
    refine List.mem_map.mpr ⟨t, ?_, rfl⟩
    refine (List.perm_insertionSort _ _).mem_iff.mpr ?_
    exact List.mem_filter.mpr ⟨ht, decide_eq_true hA2⟩

/-- Witness for C1 at concrete stores: two distinct users; update and
delete of an unowned id answer `NotFound` in both the per-user-file and the
SQL variant, `updateB` leaves the other user's file untouched, and both
list operations return only the caller's rows. -/
theorem c1_owner_isolation_witness :
    (("alice" : String) ≠ "bob") ∧ ((1 : Nat) ≠ 2)
    ∧ getTasksA (fun _ => ([] : List TaskA)) "alice" = []
    ∧ deleteA (fun _ => ([] : List TaskA)) "alice" "t1" =
        (UpdResult.notFound, fun _ => [])
    ∧ deleteC ([] : StateC) 1 "t1" = (UpdCResult.notFound, [])
    ∧ sanitizeTaskData emptyBodyC = some ⟨"", "medium", "personal", none⟩
    ∧ updateC ([] : StateC) 1 "t1" emptyBodyC "now" = (UpdCResult.notFound, [])
    ∧ (updateB (fun _ => ([] : List TaskA)) "alice" "t1" emptyBodyA "now").2 "bob" = []
    ∧ (∀ x ∈ getTasksC ([] : StateC) 1, x.user_id = 1) := by
  have h := c1_owner_isolation (fun _ => []) [] "alice" "bob" 1 2
    (by decide) (by decide)
  obtain ⟨h1, h2, h3, h4, h5, h6, h7, h8, h9, h10, h11, h12, h13, h14⟩ := h
  exact ⟨by decide, by decide, h5,
    h7 "t1" (fun t ht => absurd ht (List.not_mem_nil t)),
    h11 "t1" (fun t ht => absurd ht (List.not_mem_nil t)),
    by decide,
    h8 "t1" emptyBodyC "now" ⟨"", "medium", "personal", none⟩ (by decide)
      (fun t ht => absurd ht (List.not_mem_nil t)),
    h3 "t1" emptyBodyA "now",
    h13⟩

/-- A PUT body `{"completed": "true"}`. -/
def bodyCompletedStr : BodyA :=
  ⟨none, none, none, none, none, some (JSVal.vStr "true"), none⟩

/-- C2 counterexample: in `src/untitled/index.js` the spread-merge of
`updateTask` has no `Boolean(...)` coercion, so updating `completed` with
the string `"true"` stores the string itself, not the boolean `true`. -/
theorem c2_counterexample :
    (updateA sampleStoreA "alice" "t1" bodyCompletedStr "now").1 = UpdResult.updated
    ∧ ((updateA sampleStoreA "alice" "t1" bodyCompletedStr "now").2 "alice").map
        TaskA.completed = [JSVal.vStr "true"]
    ∧ JSVal.vStr "true" ≠ JSVal.vBool true := by decide

/-- C2 (amended): in the `part_000` variant, `updateTask` coerces a present
`completed` with `Boolean(body.completed)`, so a truthy non-boolean value is
stored as the boolean `true`; in the `index.js` variant the body value is
stored verbatim. Amended theorem, for `part_000`: whenever the caller owns
the task and `completed` is present in the body, the persisted task's
`completed` is exactly the boolean coercion of the body value. -/
theorem c2_completed_coercion (st : StateA) (uid tid now : String) (b : BodyA)
    (v : JSVal) (l₁ l₂ : List TaskA) (t : TaskA)
    (hst : st uid = l₁ ++ t :: l₂)
    (h₁ : ∀ u ∈ l₁, u.id ≠ JSVal.vStr tid)
    (ht : t.id = JSVal.vStr tid)
    (hc : b.completed = some v) :
    (updateB st uid tid b now).1 = UpdResult.updated
    ∧ (updateB st uid tid b now).2 uid = l₁ ++ mergeB t b now :: l₂
    ∧ (mergeB t b now).completed = JSVal.vBool (truthy v)
    ∧ (truthy v = true → (mergeB t b now).completed = JSVal.vBool true) := by
  have hup := updateListWith_append (fun x => mergeB x b now) tid l₁ l₂ t h₁ ht
  refine ⟨?_, ?_, ?_, ?_⟩
  · simp [updateB, hst, hup]
  · simp [updateB, hst, hup]
  · simp [mergeB, hc]
  · intro hv
    simp [mergeB, hc, hv]

/-- Witness for C2 at a concrete store: updating with `{"completed":"true"}`
through the `part_000` code stores boolean `true`. -/
theorem c2_completed_coercion_witness :
    (sampleStoreA "alice" = [] ++ sampleTaskA :: [])
    ∧ sampleTaskA.id = JSVal.vStr "t1"
    ∧ bodyCompletedStr.completed = some (JSVal.vStr "true")
    ∧ ((updateB sampleStoreA "alice" "t1" bodyCompletedStr "now").1 = UpdResult.updated
      ∧ (updateB sampleStoreA "alice" "t1" bodyCompletedStr "now").2 "alice" =
          [] ++ mergeB sampleTaskA bodyCompletedStr "now" :: []
      ∧ (mergeB sampleTaskA bodyCompletedStr "now").completed = JSVal.vBool (truthy (JSVal.vStr "true"))
      ∧ (truthy (JSVal.vStr "true") = true →
          (mergeB sampleTaskA bodyCompletedStr "now").completed = JSVal.vBool true)) := by
  refine ⟨by decide, by decide, by decide, ?_⟩
  exact c2_completed_coercion sampleStoreA "alice" "t1" "now" bodyCompletedStr
    (JSVal.vStr "true") [] [] sampleTaskA (by decide)
    (fun u hu => absurd hu (List.not_mem_nil u)) (by decide) (by decide)

/-- A POST body `{"text":"Buy milk","deadline":"not-a-date"}`. -/
def bodyBadDeadline : BodyA :=
  ⟨none, some (JSVal.vStr "Buy milk"), none, none, some (JSVal.vStr "not-a-date"), none, none⟩

/-- C3 counterexample: in `src/untitled/index.js` `createTask` stores
`deadline || null` with no format check, so the malformed deadline
`"not-a-date"` (truthy) is persisted verbatim rather than nulled. -/
theorem c3_counterexample :
    createTaskA bodyBadDeadline "id1" "now" =
      CreateAResult.created
        ⟨JSVal.vStr "id1", JSVal.vStr "Buy milk", JSVal.vStr "medium",
          JSVal.vStr "personal", JSVal.vStr "not-a-date", JSVal.vBool false,
          JSVal.vStr "now", JSVal.vStr "now"⟩
    ∧ JSVal.vStr "not-a-date" ≠ JSVal.vNull := by decide

/-- C3 (amended): only the SQLite variant (`part_001`) validates the
deadline: its `createTask` nulls any deadline that fails the
`^\d{4}-\d{2}-\d{2}$` test while still creating the task; the JSON-file
variants (`index.js`, `part_000`) store a truthy malformed deadline
verbatim. Amended theorem, for `part_001`: a create with non-empty text and
a deadline failing the format test succeeds and persists `deadline = null`. -/
theorem c3_malformed_deadline_nulled (b : BodyC) (uid : Nat) (nid now : String)
    (d : String) (htext : jsTrim (b.text.getD "") ≠ "")
    (hd : b.deadline = some d) (hshape : isDateShape d = false) :
    (∃ t, createTaskC b uid nid now = some t)
    ∧ (∀ t, createTaskC b uid nid now = some t → t.deadline = none) := by
  constructor
  · simp only [createTaskC, htext, if_neg htext]
    exact ⟨_, rfl⟩
  · intro t hsome
    simp only [createTaskC, htext, if_neg htext, hd] at hsome
    rw [if_neg not_false] at hsome
    rw [Option.some_inj] at hsome
    subst hsome
    by_cases hde : d = ""
    · simp [hde]
    · simp [hde, hshape]

/-- Witness for C3: creating `{"text":"Buy milk","deadline":"not-a-date"}`
through the `part_001` code succeeds with a null deadline. -/
theorem c3_malformed_deadline_nulled_witness :
    (jsTrim ((some "Buy milk").getD "") ≠ "")
    ∧ isDateShape "not-a-date" = false
    ∧ ((∃ t, createTaskC ⟨some "Buy milk", none, none, some "not-a-date", none⟩ 1 "id1" "now" =
          some t)
      ∧ (∀ t, createTaskC ⟨some "Buy milk", none, none, some "not-a-date", none⟩ 1 "id1" "now" =
          some t → t.deadline = none)) := by
  refine ⟨by decide, by decide, ?_⟩
  exact c3_malformed_deadline_nulled ⟨some "Buy milk", none, none, some "not-a-date", none⟩
    1 "id1" "now" "not-a-date" (by decide) (by decide) (by decide)

/-- A POST body `{"text":"Buy milk","priority":"urgent"}`. -/
def bodyBadPriority : BodyA :=
  ⟨none, some (JSVal.vStr "Buy milk"), some (JSVal.vStr "urgent"), none, none, none, none⟩

/-- C4 counterexample: in `src/untitled/index.js` `createTask` stores
`priority || 'medium'` with no enum check, so the invalid priority
`"urgent"` (truthy) is persisted verbatim instead of falling back to
`medium`. -/
theorem c4_counterexample :
    createTaskA bodyBadPriority "id1" "now" =
      CreateAResult.created
        ⟨JSVal.vStr "id1", JSVal.vStr "Buy milk", JSVal.vStr "urgent",
          JSVal.vStr "personal", JSVal.vNull, JSVal.vBool false,
          JSVal.vStr "now", JSVal.vStr "now"⟩
    ∧ JSVal.vStr "urgent" ∉
        [JSVal.vStr "low", JSVal.vStr "medium", JSVal.vStr "high"] := by decide

/-- C4 (amended): only the SQLite variant (`part_001`) normalizes the
enums: its `createTask` keeps a priority in `{low, medium, high}` and a
category in `{personal, work, shopping, health}` and silently falls back to
`medium`/`personal` on any other or absent value, never erroring; the
JSON-file variants (`index.js`, `part_000`) store any truthy invalid value
verbatim. Amended theorem, for `part_001`: every created task has an
in-enum priority and category, equal to the given value when valid and to
the default when absent or invalid. -/
theorem c4_enum_fallback (b : BodyC) (uid : Nat) (nid now : String) (t : TaskC)
    (hsome : createTaskC b uid nid now = some t) :
    ["low", "medium", "high"].contains t.priority = true
    ∧ ["personal", "work", "shopping", "health"].contains t.category = true
    ∧ (∀ s, b.priority = some s → ["low", "medium", "high"].contains s = true →
        t.priority = s)
    ∧ (b.priority = none → t.priority = "medium")
    ∧ (∀ s, b.priority = some s → ["low", "medium", "high"].contains s = false →
        t.priority = "medium")
    ∧ (∀ s, b.category = some s →
        ["personal", "work", "shopping", "health"].contains s = true → t.category = s)
    ∧ (b.category = none → t.category = "personal")
    ∧ (∀ s, b.category = some s →
        ["personal", "work", "shopping", "health"].contains s = false →
        t.category = "personal") := by
  by_cases htext : jsTrim (b.text.getD "") = ""
  · simp [createTaskC, htext] at hsome
  · simp only [createTaskC, htext, if_neg htext] at hsome
    rw [if_neg not_false] at hsome
    rw [Option.some_inj] at hsome
    subst hsome
    refine ⟨?_, ?_, ?_, ?_, ?_, ?_, ?_, ?_⟩
    · dsimp only
      split_ifs with h
      · exact h
      · decide
    · dsimp only
      split_ifs with h
      · exact h
      · decide
    · intro s hbp hmem
      have hs : s ≠ "" := by
        intro e
        rw [e] at hmem
        exact absurd hmem (by decide)
      dsimp only
      simp only [hbp]
      have h1 : (if s ≠ "" then s else "medium") = s := if_pos hs
      rw [h1, if_pos hmem]
    · intro hbp
      dsimp only
      simp [hbp]
    · intro s hbp hmem
      dsimp only
      simp only [hbp]
      by_cases hs : s = ""
      · subst hs
        decide
      · have h1 : (if s ≠ "" then s else "medium") = s := if_pos hs
        rw [h1, if_neg (by simpa using hmem)]
    · intro s hbp hmem
      have hs : s ≠ "" := by
        intro e
        rw [e] at hmem
        exact absurd hmem (by decide)
      dsimp only
      simp only [hbp]
      have h1 : (if s ≠ "" then s else "personal") = s := if_pos hs
      rw [h1, if_pos hmem]
    · intro hbp
      dsimp only
      simp [hbp]
    · intro s hbp hmem
      dsimp only
      simp only [hbp]
      by_cases hs : s = ""
      · subst hs
        decide
      · have h1 : (if s ≠ "" then s else "personal") = s := if_pos hs
        rw [h1, if_neg (by simpa using hmem)]

/-- Witness for C4: creating `{"text":"Buy milk","priority":"urgent"}`
through the `part_001` code yields a task whose priority fell back to
`medium` and whose category defaulted to `personal`. -/
theorem c4_enum_fallback_witness :
    createTaskC ⟨some "Buy milk", some "urgent", none, none, none⟩ 1 "id1" "now" =
      some ⟨"id1", 1, "Buy milk", 0, "medium", "personal", none, "now", "now"⟩
    ∧ (⟨"id1", 1, "Buy milk", 0, "medium", "personal", none, "now", "now"⟩ : TaskC).priority =
        "medium"
    ∧ (⟨"id1", 1, "Buy milk", 0, "medium", "personal", none, "now", "now"⟩ : TaskC).category =
        "personal" := by
  have h := c4_enum_fallback ⟨some "Buy milk", some "urgent", none, none, none⟩ 1 "id1" "now"
    ⟨"id1", 1, "Buy milk", 0, "medium", "personal", none, "now", "now"⟩ (by decide)
  exact ⟨by decide,
    h.2.2.2.2.1 "urgent" rfl (by decide),
    h.2.2.2.2.2.2.1 rfl⟩

/-- C5 counterexample: in the SQLite variant (`part_001`) `updateTask` is a
full replace, not a patch: updating `sampleTaskC` (text "Buy milk",
priority "high", category "work", deadline set) with the empty body `{}`
succeeds and resets text to `""`, priority to `medium`, category to
`personal` and deadline to null — fields absent from the body do not retain
their prior values. -/
theorem c5_counterexample :
    (updateC [sampleTaskC] 1 "t1" emptyBodyC "now").1 = UpdCResult.updated
    ∧ (updateC [sampleTaskC] 1 "t1" emptyBodyC "now").2 =
        [⟨"t1", 1, "", 0, "medium", "personal", none,
          "2025-01-01 00:00:00", "now"⟩]
    ∧ sampleTaskC.priority = "high" ∧ sampleTaskC.text = "Buy milk"
    ∧ sampleTaskC.category = "work" ∧ sampleTaskC.deadline = some "2025-01-01" := by
  decide

/-- C5 (amended): patch semantics holds only in the JSON-file variants:
`index.js`'s `updateTask` merges the body over the stored record, so every
field absent from the body (text, priority, category, deadline, completed,
created_at) keeps its prior value while `updated_at` is re-stamped; the
SQLite variant (`part_001`) instead overwrites every column from the
sanitized body. Amended theorem, for `index.js`: an update of an owned task
succeeds and each field not present in the body is unchanged. -/
theorem c5_update_patch_semantics (st : StateA) (uid tid now : String) (b : BodyA)
    (l₁ l₂ : List TaskA) (t : TaskA)
    (hst : st uid = l₁ ++ t :: l₂)
    (h₁ : ∀ u ∈ l₁, u.id ≠ JSVal.vStr tid)
    (ht : t.id = JSVal.vStr tid) :
    (updateA st uid tid b now).1 = UpdResult.updated
    ∧ (updateA st uid tid b now).2 uid = l₁ ++ mergeA t b now :: l₂
    ∧ (b.text = none → (mergeA t b now).text = t.text)
    ∧ (b.priority = none → (mergeA t b now).priority = t.priority)
    ∧ (b.category = none → (mergeA t b now).category = t.category)
    ∧ (b.deadline = none → (mergeA t b now).deadline = t.deadline)
    ∧ (b.completed = none → (mergeA t b now).completed = t.completed)
    ∧ (b.created_at = none → (mergeA t b now).created_at = t.created_at)
    ∧ (mergeA t b now).updated_at = JSVal.vStr now := by
  have hup := updateListWith_append (fun x => mergeA x b now) tid l₁ l₂ t h₁ ht
  refine ⟨?_, ?_, ?_, ?_, ?_, ?_, ?_, ?_, rfl⟩
  · simp [updateA, hst, hup]
  · simp [updateA, hst, hup]
  all_goals intro h
  all_goals simp [mergeA, h]

/-- Witness for C5: updating the sample store with the empty body `{}`
through the `index.js` code leaves every stored field unchanged except the
re-stamped `updated_at`. -/
theorem c5_update_patch_semantics_witness :
    (sampleStoreA "alice" = [] ++ sampleTaskA :: [])
    ∧ sampleTaskA.id = JSVal.vStr "t1"
    ∧ ((updateA sampleStoreA "alice" "t1" emptyBodyA "now").1 = UpdResult.updated
      ∧ (updateA sampleStoreA "alice" "t1" emptyBodyA "now").2 "alice" =
          [] ++ mergeA sampleTaskA emptyBodyA "now" :: []
      ∧ (emptyBodyA.text = none →
          (mergeA sampleTaskA emptyBodyA "now").text = sampleTaskA.text)
      ∧ (emptyBodyA.priority = none →
          (mergeA sampleTaskA emptyBodyA "now").priority = sampleTaskA.priority)
      ∧ (emptyBodyA.category = none →
          (mergeA sampleTaskA emptyBodyA "now").category = sampleTaskA.category)
      ∧ (emptyBodyA.deadline = none →
          (mergeA sampleTaskA emptyBodyA "now").deadline = sampleTaskA.deadline)
      ∧ (emptyBodyA.completed = none →
          (mergeA sampleTaskA emptyBodyA "now").completed = sampleTaskA.completed)
      ∧ (emptyBodyA.created_at = none →
          (mergeA sampleTaskA emptyBodyA "now").created_at = sampleTaskA.created_at)
      ∧ (mergeA sampleTaskA emptyBodyA "now").updated_at = JSVal.vStr "now") := by
  refine ⟨by decide, by decide, ?_⟩
  exact c5_update_patch_semantics sampleStoreA "alice" "t1" "now" emptyBodyA
    [] [] sampleTaskA (by decide) (fun u hu => absurd hu (List.not_mem_nil u)) (by decide)

/-- A PUT body `{"text":""}`. -/
def bodyEmptyText : BodyA :=
  ⟨none, some (JSVal.vStr ""), none, none, none, none, none⟩

/-- C6 counterexample: in `src/untitled/index.js` `updateTask` merges the
body with no text validation, so a PUT with `{"text":""}` succeeds (200)
and leaves the persisted task with empty text, breaking the non-empty-text
invariant. -/
theorem c6_counterexample :
    (updateA sampleStoreA "alice" "t1" bodyEmptyText "now").1 = UpdResult.updated
    ∧ ((updateA sampleStoreA "alice" "t1" bodyEmptyText "now").2 "alice").map
        TaskA.text = [JSVal.vStr ""]
    ∧ sampleTaskA.text = JSVal.vStr "Buy milk" := by decide

/-- C6 (amended): the non-empty-text guarantee holds at creation only:
every variant's `createTask` rejects absent, empty or whitespace-only text
with a 400 before storing anything, but no variant's `updateTask` validates
text, so a successful update can leave a stored task with empty text
(`index.js`/`part_000` store an explicit empty text verbatim, and
`part_001` resets text to the empty string whenever the body omits it).
Amended theorem: the create-side rejection, in variants A and C. -/
theorem c6_create_rejects_empty_text (st : StateA) (uid : String) (uidC : Nat)
    (bA b₂ : BodyA) (sA : String) (bC : BodyC) (nid now : String)
    (hA : bA.text = some (JSVal.vStr sA)) (hsA : jsTrim sA = "")
    (h₂ : b₂.text = none)
    (hC : jsTrim (bC.text.getD "") = "") :
    createTaskA bA nid now = CreateAResult.badRequest
    ∧ createA st uid bA nid now = (CreateAResult.badRequest, st)
    ∧ createTaskA b₂ nid now = CreateAResult.badRequest
    ∧ createTaskC bC uidC nid now = none := by
  have h1 : createTaskA bA nid now = CreateAResult.badRequest := by
    by_cases hs : sA = ""
    · simp [createTaskA, hA, truthy, hs]
    · simp [createTaskA, hA, truthy, hs, hsA]
  refine ⟨h1, by simp [createA, h1], by simp [createTaskA, h₂], by simp [createTaskC, hC]⟩

/-- Witness for C6: whitespace-only text `"   "` is rejected by the create
paths of variants A and C, with the store untouched. -/
theorem c6_create_rejects_empty_text_witness :
    ((⟨none, some (JSVal.vStr "   "), none, none, none, none, none⟩ : BodyA).text =
        some (JSVal.vStr "   "))
    ∧ jsTrim "   " = ""
    ∧ (createTaskA ⟨none, some (JSVal.vStr "   "), none, none, none, none, none⟩ "id1" "now" =
          CreateAResult.badRequest
      ∧ createA sampleStoreA "alice"
          ⟨none, some (JSVal.vStr "   "), none, none, none, none, none⟩ "id1" "now" =
          (CreateAResult.badRequest, sampleStoreA)
      ∧ createTaskA emptyBodyA "id1" "now" = CreateAResult.badRequest
      ∧ createTaskC ⟨some "   ", none, none, none, none⟩ 1 "id1" "now" = none) := by
  refine ⟨by decide, by decide, ?_⟩
  exact c6_create_rejects_empty_text sampleStoreA "alice" 1
    ⟨none, some (JSVal.vStr "   "), none, none, none, none, none⟩ emptyBodyA "   "
    ⟨some "   ", none, none, none, none⟩ "id1" "now" (by decide) (by decide)
    (by decide) (by decide)

/-- C7: Login failure indistinguishability. For any credential store and
any bcrypt oracle, a login naming an unknown username and a login naming a
known username with a non-matching password produce the identical response:
status 400 with the same invalid-credentials body. -/
theorem c7_login_failure_indistinguishable (check : String → String → Bool)
    (users : List UserA) (u₁ p₁ u₂ p₂ : String) (w : UserA)
    (h₁u : u₁ ≠ "") (h₁p : p₁ ≠ "") (h₂u : u₂ ≠ "") (h₂p : p₂ ≠ "")
    (habsent : users.find? (fun u => u.username = u₁) = none)
    (hfound : users.find? (fun u => u.username = u₂) = some w)
    (hmismatch : check p₂ w.password = false) :
    handleLogin check users u₁ p₁ = handleLogin check users u₂ p₂
    ∧ handleLogin check users u₁ p₁ = LoginResult.badRequest "Неверные данные" := by
  have e₁ : handleLogin check users u₁ p₁ = LoginResult.badRequest "Неверные данные" := by
    simp [handleLogin, h₁u, h₁p, habsent]
  have e₂ : handleLogin check users u₂ p₂ = LoginResult.badRequest "Неверные данные" := by
    simp [handleLogin, h₂u, h₂p, hfound, hmismatch]
  exact ⟨e₁.trans e₂.symm, e₁⟩

/-- Witness for C7 with a one-user store: `alice` is unknown, `bob` exists
but the password hash does not match; both logins answer the same 400. -/
theorem c7_login_failure_indistinguishable_witness :
    (([⟨"1", "bob", "bob@x", "hash1", "c"⟩] : List UserA).find?
        (fun u => u.username = "alice") = none)
    ∧ (([⟨"1", "bob", "bob@x", "hash1", "c"⟩] : List UserA).find?
        (fun u => u.username = "bob") = some ⟨"1", "bob", "bob@x", "hash1", "c"⟩)
    ∧ (handleLogin (fun p h => p = h) [⟨"1", "bob", "bob@x", "hash1", "c"⟩] "alice" "pw" =
        handleLogin (fun p h => p = h) [⟨"1", "bob", "bob@x", "hash1", "c"⟩] "bob" "wrong"
      ∧ handleLogin (fun p h => p = h) [⟨"1", "bob", "bob@x", "hash1", "c"⟩] "alice" "pw" =
        LoginResult.badRequest "Неверные данные") := by
  refine ⟨by decide, by decide, ?_⟩
  exact c7_login_failure_indistinguishable (fun p h => p = h)
    [⟨"1", "bob", "bob@x", "hash1", "c"⟩] "alice" "pw" "bob" "wrong"
    ⟨"1", "bob", "bob@x", "hash1", "c"⟩ (by decide) (by decide) (by decide) (by decide)
    (by decide) (by decide) (by decide)

/-- Credential store containing one user whose username contains a colon
(registration imposes no character restriction on usernames). -/
def colonUsers : List UserTok := [⟨[49], [98, 58, 99]⟩]

/-- C8 counterexample: for the registered user with id `"1"` and username
`"b:c"`, the token issued at login (base64 of `"1:b:c"`) does NOT
authenticate back to that user: `decoded.split(':')` destructures to
`("1", "b")`, which matches no stored user, so `authenticate` rejects a
token the service itself issued — the round trip fails although the token
is well-formed and decodable and the user exists. -/
theorem c8_counterexample :
    authenticate colonUsers (some (basicPrefix ++ issueToken [49] [98, 58, 99])) = none
    ∧ (⟨[49], [98, 58, 99]⟩ : UserTok) ∈ colonUsers := by decide

/-- C8 (amended): the round trip holds exactly for users whose id and
username are colon-free (ids are numeric, so only the username matters):
presenting `Authorization: Basic <base64 of "id:username">` back to
`authenticate` resolves to the same `(id, username)` pair. -/
theorem c8_token_roundtrip (users : List UserTok) (u : UserTok)
    (hu : u ∈ users)
    (hid : ∀ x ∈ u.id, x < 256) (hname : ∀ x ∈ u.username, x < 256)
    (hidc : 58 ∉ u.id) (hnamec : 58 ∉ u.username) :
    authenticate users (some (basicPrefix ++ issueToken u.id u.username)) =
      some (u.id, u.username) := by
  have htake : (basicPrefix ++ b64encode (u.id ++ 58 :: u.username)).take 6 = basicPrefix :=
    rfl
  have hdrop : (basicPrefix ++ b64encode (u.id ++ 58 :: u.username)).drop 6 =
      b64encode (u.id ++ 58 :: u.username) := rfl
  have hbytes : ∀ x ∈ u.id ++ 58 :: u.username, x < 256 := by
    intro x hx
    rcases List.mem_append.mp hx with h | h
    · exact hid x h
    · rcases List.mem_cons.mp h with h | h
      · omega
      · exact hname x h
  have hdec : b64decode (b64encode (u.id ++ 58 :: u.username)) = u.id ++ 58 :: u.username :=
    b64_roundtrip _ hbytes
  have hsplit : splitColon (u.id ++ 58 :: u.username) = [u.id, u.username] := by
    rw [splitColon_append _ _ hidc, splitColon_of_no_colon _ hnamec]
  have hex : (users.find? (fun v => v.id = u.id ∧ v.username = u.username)).isSome :=
    List.find?_isSome.mpr ⟨u, hu, by exact decide_eq_true ⟨rfl, rfl⟩⟩
  obtain ⟨w, hw⟩ := Option.isSome_iff_exists.mp hex
  have hpw0 := List.find?_some hw
  have hpw : w.id = u.id ∧ w.username = u.username := of_decide_eq_true hpw0
  rw [authenticate.eq_def]
  simp only [htake, hdrop, issueToken, hdec, hsplit, eq_self_iff_true, if_true,
    List.get?]
  rw [hw]
  simp [hpw.1, hpw.2]

/-- Witness for C8: the user `(id "1", username "bob")` — colon-free —
round-trips through issue and authenticate. -/
theorem c8_token_roundtrip_witness :
    ((⟨[49], [98, 111, 98]⟩ : UserTok) ∈ ([⟨[49], [98, 111, 98]⟩] : List UserTok))
    ∧ authenticate [⟨[49], [98, 111, 98]⟩]
        (some (basicPrefix ++ issueToken [49] [98, 111, 98])) =
        some ([49], [98, 111, 98]) := by
  refine ⟨by decide, ?_⟩
  exact c8_token_roundtrip [⟨[49], [98, 111, 98]⟩] ⟨[49], [98, 111, 98]⟩
    (by decide) (by decide) (by decide) (by decide) (by decide)

/-- C9: Delete answers `NotFound` exactly when the caller owns no task with
the id. In both the per-user-file variant (`index.js`) and the SQL variant
(`part_001`): the first delete of an owned task succeeds and removes it, a
second delete of the same id answers `NotFound` with the store unchanged,
and deleting an id the caller never owned answers `NotFound` with the store
unchanged. -/
theorem c9_delete_semantics (st : StateA) (uid tid : String) (t : TaskA)
    (stC : StateC) (nuid : Nat) (tidC : String) (r : TaskC)
    (ht : t ∈ st uid) (hid : t.id = JSVal.vStr tid)
    (hr : r ∈ stC) (hrid : r.id = tidC) (hruid : r.user_id = nuid) :
    (deleteA st uid tid).1 = UpdResult.updated
    ∧ (deleteA st uid tid).2 uid = (st uid).filter (fun x => x.id ≠ JSVal.vStr tid)
    ∧ (∀ x ∈ (deleteA st uid tid).2 uid, x.id ≠ JSVal.vStr tid)
    ∧ deleteA ((deleteA st uid tid).2) uid tid =
        (UpdResult.notFound, (deleteA st uid tid).2)
    ∧ (∀ tid₂, (∀ x ∈ st uid, x.id ≠ JSVal.vStr tid₂) →
        deleteA st uid tid₂ = (UpdResult.notFound, st))
    ∧ (deleteC stC nuid tidC).1 = UpdCResult.updated
    ∧ (deleteC stC nuid tidC).2 =
        stC.filter (fun x => ¬(x.id = tidC ∧ x.user_id = nuid))
    ∧ deleteC ((deleteC stC nuid tidC).2) nuid tidC =
        (UpdCResult.notFound, (deleteC stC nuid tidC).2)
    ∧ (∀ tid₂, (∀ x ∈ stC, ¬(x.id = tid₂ ∧ x.user_id = nuid)) →
        deleteC stC nuid tid₂ = (UpdCResult.notFound, stC)) := by
  have hpt : (fun x : TaskA => decide (x.id ≠ JSVal.vStr tid)) t = false := by
    simp [hid]
  have hlen := length_ne_length_filter_of_mem (st uid)
    (fun x => x.id ≠ JSVal.vStr tid) t ht hpt
  have hda : deleteA st uid tid =
      (UpdResult.updated,
        fun u => if u = uid then (st uid).filter (fun x => x.id ≠ JSVal.vStr tid)
        else st u) := by
    rw [deleteA_eq, if_neg hlen]
  have hprC : (fun x : TaskC => decide ¬(x.id = tidC ∧ x.user_id = nuid)) r = false := by
    simp [hrid, hruid]
  have hlenC := length_ne_length_filter_of_mem stC
    (fun x => ¬(x.id = tidC ∧ x.user_id = nuid)) r hr hprC
  have hdc : deleteC stC nuid tidC =
      (UpdCResult.updated, stC.filter (fun x => ¬(x.id = tidC ∧ x.user_id = nuid))) := by
    rw [deleteC_eq, if_neg hlenC]
  have hgenA : ∀ (st₂ : StateA) (tid₂ : String),
      (∀ x ∈ st₂ uid, x.id ≠ JSVal.vStr tid₂) →
      deleteA st₂ uid tid₂ = (UpdResult.notFound, st₂) := by
    intro st₂ tid₂ h
    have hself : (st₂ uid).filter (fun x => x.id ≠ JSVal.vStr tid₂) = st₂ uid :=
      List.filter_eq_self.mpr (fun x hx => decide_eq_true (h x hx))
    rw [deleteA_eq, hself, if_pos rfl]
  have hgenC : ∀ (st₂ : StateC) (tid₂ : String),
      (∀ x ∈ st₂, ¬(x.id = tid₂ ∧ x.user_id = nuid)) →
      deleteC st₂ nuid tid₂ = (UpdCResult.notFound, st₂) := by
    intro st₂ tid₂ h
    have hself : st₂.filter (fun x => ¬(x.id = tid₂ ∧ x.user_id = nuid)) = st₂ :=
      List.filter_eq_self.mpr (fun x hx => decide_eq_true (h x hx))
    rw [deleteC_eq, hself, if_pos rfl]
  have hnores : ∀ x ∈ (deleteA st uid tid).2 uid, x.id ≠ JSVal.vStr tid := by
    intro x hx
    rw [hda] at hx
    dsimp only at hx
    rw [if_pos rfl] at hx
    exact of_decide_eq_true (List.mem_filter.mp hx).2
  have hnoresC : ∀ x ∈ (deleteC stC nuid tidC).2, ¬(x.id = tidC ∧ x.user_id = nuid) := by
    intro x hx
    rw [hdc] at hx
    dsimp only at hx
    exact of_decide_eq_true (List.mem_filter.mp hx).2
  refine ⟨by rw [hda], ?_, hnores, hgenA (deleteA st uid tid).2 tid hnores,
    fun tid₂ h => hgenA st tid₂ h, by rw [hdc], by rw [hdc],
    hgenC (deleteC stC nuid tidC).2 tidC hnoresC,
    fun tid₂ h => hgenC stC tid₂ h⟩
  rw [hda]
  exact if_pos rfl

/-- Witness for C9 at the one-task sample stores of both variants. -/
theorem c9_delete_semantics_witness :
    (sampleTaskA ∈ sampleStoreA "alice")
    ∧ sampleTaskA.id = JSVal.vStr "t1"
    ∧ sampleTaskC ∈ [sampleTaskC] ∧ sampleTaskC.id = "t1" ∧ sampleTaskC.user_id = 1
    ∧ (deleteA sampleStoreA "alice" "t1").1 = UpdResult.updated
    ∧ (deleteC [sampleTaskC] 1 "t1").1 = UpdCResult.updated := by
  have h := c9_delete_semantics sampleStoreA "alice" "t1" sampleTaskA
    [sampleTaskC] 1 "t1" sampleTaskC (by decide) (by decide) (by decide)
    (by decide) (by decide)
  exact ⟨by decide, by decide, by decide, by decide, by decide, h.1, h.2.2.2.2.2.1⟩

/-- C10: No field whitelist in the JSON-file variants. In both `index.js`
and `part_000`, `updateTask` spreads the whole body over the stored record,
so a body carrying `id` or `created_at` overwrites those persisted fields:
the update succeeds and the stored task's `id` and `created_at` become the
body's values. -/
theorem c10_no_field_whitelist (st : StateA) (uid tid now : String) (b : BodyA)
    (l₁ l₂ : List TaskA) (t : TaskA) (v w : JSVal)
    (hst : st uid = l₁ ++ t :: l₂)
    (h₁ : ∀ u ∈ l₁, u.id ≠ JSVal.vStr tid)
    (ht : t.id = JSVal.vStr tid)
    (hbid : b.id = some v) (hbca : b.created_at = some w) :
    (updateA st uid tid b now).1 = UpdResult.updated
    ∧ (updateA st uid tid b now).2 uid = l₁ ++ mergeA t b now :: l₂
    ∧ (mergeA t b now).id = v
    ∧ (mergeA t b now).created_at = w
    ∧ (updateB st uid tid b now).1 = UpdResult.updated
    ∧ (updateB st uid tid b now).2 uid = l₁ ++ mergeB t b now :: l₂
    ∧ (mergeB t b now).id = v
    ∧ (mergeB t b now).created_at = w := by
  have hupA := updateListWith_append (fun x => mergeA x b now) tid l₁ l₂ t h₁ ht
  have hupB := updateListWith_append (fun x => mergeB x b now) tid l₁ l₂ t h₁ ht
  refine ⟨?_, ?_, ?_, ?_, ?_, ?_, ?_, ?_⟩
  · simp [updateA, hst, hupA]
  · simp [updateA, hst, hupA]
  · simp [mergeA, hbid]
  · simp [mergeA, hbca]
  · simp [updateB, hst, hupB]
  · simp [updateB, hst, hupB]
  · cases hbc : b.completed <;> simp [mergeB, mergeA, hbc, hbid]
  · cases hbc : b.completed <;> simp [mergeB, mergeA, hbc, hbca]

/-- A PUT body rewriting the protected fields:
`{"id":"evil","created_at":"1999-01-01"}`. -/
def bodyRewriteId : BodyA :=
  ⟨some (JSVal.vStr "evil"), none, none, none, none, none, some (JSVal.vStr "1999-01-01")⟩

/-- Witness for C10: updating the sample task with a body naming `id` and
`created_at` persists the attacker-chosen values in both JSON-file
variants; the stored id actually changes. -/
theorem c10_no_field_whitelist_witness :
    (sampleTaskA.id ≠ JSVal.vStr "evil"
      ∧ sampleTaskA.created_at ≠ JSVal.vStr "1999-01-01"
      ∧ bodyRewriteId.id = some (JSVal.vStr "evil")
      ∧ bodyRewriteId.created_at = some (JSVal.vStr "1999-01-01"))
    ∧ ((updateA sampleStoreA "alice" "t1" bodyRewriteId "now").1 = UpdResult.updated
      ∧ (updateA sampleStoreA "alice" "t1" bodyRewriteId "now").2 "alice" =
          [] ++ mergeA sampleTaskA bodyRewriteId "now" :: []
      ∧ (mergeA sampleTaskA bodyRewriteId "now").id = JSVal.vStr "evil"
      ∧ (mergeA sampleTaskA bodyRewriteId "now").created_at = JSVal.vStr "1999-01-01"
      ∧ (updateB sampleStoreA "alice" "t1" bodyRewriteId "now").1 = UpdResult.updated
      ∧ (updateB sampleStoreA "alice" "t1" bodyRewriteId "now").2 "alice" =
          [] ++ mergeB sampleTaskA bodyRewriteId "now" :: []
      ∧ (mergeB sampleTaskA bodyRewriteId "now").id = JSVal.vStr "evil"
      ∧ (mergeB sampleTaskA bodyRewriteId "now").created_at = JSVal.vStr "1999-01-01") := by
  refine ⟨by decide, ?_⟩
  exact c10_no_field_whitelist sampleStoreA "alice" "t1" "now" bodyRewriteId
    [] [] sampleTaskA (JSVal.vStr "evil") (JSVal.vStr "1999-01-01") (by decide)
    (fun u hu => absurd hu (List.not_mem_nil u)) (by decide) (by decide) (by decide)
